import Mathlib

/-!
Verification of the presentation-viewer repository: a shallow embedding of
the JDK release-page scraper (`jdk_scraper.py`), the sample-data fallback
(`generate_jdk25_presentation.py`) and the slide generator
(`presentation_generator.py`), together with proofs about the claims of
the specification.

HTML documents are modelled as explicit trees (`Node`); BeautifulSoup
traversals (`find`, `find_all`, `find_next`, `.string`, `get_text`) are
compiled to preorder-path functions over that tree, and the concrete
regular expressions of the source are compiled to character-list scanners.
-/

namespace PresViewer

/-! ## Basic character and string helpers (Python semantics) -/

/-- ASCII decimal digit, the `\d` class for the ASCII strings handled here. -/
def isDigitC (c : Char) : Bool := '0' ≤ c && c ≤ '9'

/-- Python's `\s` / `str.strip` whitespace set. -/
def isPyWs (c : Char) : Bool :=
  c = ' ' || c = '\t' || c = '\n' || c = '\r' || c = '\x0b' || c = '\x0c'

/-- Regex word character `\w` (ASCII). -/
def isWordC (c : Char) : Bool :=
  isDigitC c || ('a' ≤ c && c ≤ 'z') || ('A' ≤ c && c ≤ 'Z') || c = '_'

/-- Python `str.lower()` on ASCII text. -/
def pyLower (s : String) : String := ⟨s.data.map Char.toLower⟩

/-- Python `str.strip()`. -/
def pyStrip (s : String) : String :=
  ⟨((s.data.dropWhile isPyWs).reverse.dropWhile isPyWs).reverse⟩

/-- Case-insensitive character equality. -/
def ciEq (a b : Char) : Bool := a.toLower == b.toLower

/-- `pat` is a prefix of `s` (exact characters). -/
def leadsWith : List Char → List Char → Bool
  | [], _ => true
  | _ :: _, [] => false
  | a :: as, b :: bs => a == b && leadsWith as bs

/-- `pat` is a prefix of `s`, compared case-insensitively. -/
def ciLeadsWith : List Char → List Char → Bool
  | [], _ => true
  | _ :: _, [] => false
  | a :: as, b :: bs => ciEq a b && ciLeadsWith as bs

/-- `needle` occurs as a contiguous substring of `hay` (Python `in`, case-sensitive). -/
def containsL (needle : List Char) : List Char → Bool
  | [] => leadsWith needle []
  | c :: cs => leadsWith needle (c :: cs) || containsL needle cs

/-- String-level substring test, Python `needle in hay`. -/
def strContains (hay needle : String) : Bool := containsL needle.data hay.data

/-- Python `str.startswith` without case folding. -/
def startsWithL (s pre : String) : Bool := leadsWith pre.data s.data

/-- Python `str.split()` on whitespace, used for multi-valued `class` attributes. -/
def splitWsAux (cur : List Char) (acc : List (List Char)) : List Char → List (List Char)
  | [] => if cur.isEmpty then acc.reverse else (cur.reverse :: acc).reverse
  | c :: cs =>
    if isPyWs c then
      if cur.isEmpty then splitWsAux [] acc cs
      else splitWsAux [] (cur.reverse :: acc) cs
    else splitWsAux (c :: cur) acc cs

def splitWs (s : String) : List String := (splitWsAux [] [] s.data).map String.mk

/-! ## The document tree

A parsed HTML document (`BeautifulSoup` object) is a tree of element and
text nodes.  Nodes are addressed by the list of child indices from the
root (the `BeautifulSoup` `[document]` object), so that document-order
(`next_elements`) traversal, parents and siblings are all expressible. -/

inductive Node where
  | elem (tag : String) (attrs : List (String × String)) (children : List Node)
  | text (s : String)

def childrenOf : Node → List Node
  | .elem _ _ cs => cs
  | .text _ => []

def attrsOf : Node → List (String × String)
  | .elem _ a _ => a
  | .text _ => []

def tagOf : Node → Option String
  | .elem t _ _ => some t
  | .text _ => none

def isElemN : Node → Bool
  | .elem _ _ _ => true
  | .text _ => false

/-- Attribute lookup, `tag.get(key)` (first binding wins). -/
def getAttr (n : Node) (k : String) : Option String :=
  ((attrsOf n).find? (fun kv => kv.1 == k)).map (·.2)

/-- BeautifulSoup multi-valued `class` matching: the `class` attribute is
split on whitespace and matched token-by-token. -/
def hasClass (n : Node) (c : String) : Bool :=
  match getAttr n "class" with
  | some v => (splitWs v).contains c
  | none => false

mutual
/-- All text-node strings inside a subtree, document order. -/
def nodeTexts : Node → List String
  | .text s => [s]
  | .elem _ _ cs => nodeTextsL cs

def nodeTextsL : List Node → List String
  | [] => []
  | n :: ns => nodeTexts n ++ nodeTextsL ns
end

/-- `tag.get_text()` with the default empty separator and no stripping. -/
def getText (n : Node) : String := ⟨((nodeTexts n).map String.data).foldl (· ++ ·) []⟩

/-- `tag.get_text(strip=True)`: each string stripped, then concatenated. -/
def getTextStrip (n : Node) : String :=
  ⟨(((nodeTexts n).map (fun s => (pyStrip s).data)).foldl (· ++ ·) [])⟩

/-- BeautifulSoup `Tag.string`: defined when the subtree has a unique
string; `None` when the node has zero or several children. -/
def nodeString : Node → Option String
  | .text s => some s
  | .elem _ _ [c] => nodeString c
  | .elem _ _ _ => none

mutual
/-- Preorder paths of every node of a subtree, the node itself (`[]`) first. -/
def subPaths : Node → List (List Nat)
  | .text _ => [[]]
  | .elem _ _ cs => [] :: subPathsAux 0 cs

def subPathsAux : Nat → List Node → List (List Nat)
  | _, [] => []
  | i, c :: cs => (subPaths c).map (i :: ·) ++ subPathsAux (i + 1) cs
end

/-- Node lookup by path. -/
def getNodePath : List Nat → Node → Option Node
  | [], n => some n
  | i :: p, n =>
    match (childrenOf n).get? i with
    | some c => getNodePath p c
    | none => none

/-- Paths of the descendants of the root, in document (preorder) order:
what `soup.descendants` iterates over. -/
def descPaths (root : Node) : List (List Nat) := (subPaths root).drop 1

/-- Everything strictly after `p` in document order: `tag.next_elements`. -/
def pathsAfter (root : Node) (p : List Nat) : List (List Nat) :=
  let ps := subPaths root
  ps.drop (ps.findIdx (fun q => q == p) + 1)

/-- `tag.find_next(tags)`: first following element whose tag is in `tags`. -/
def findNextTagIn (root : Node) (p : List Nat) (tags : List String) : Option (List Nat) :=
  (pathsAfter root p).find? (fun q =>
    match getNodePath q root with
    | some n => (match tagOf n with | some t => tags.contains t | none => false)
    | none => false)

/-- `tag.find_next()`: first following element of any tag. -/
def findNextElemPath (root : Node) (p : List Nat) : Option (List Nat) :=
  (pathsAfter root p).find? (fun q =>
    match getNodePath q root with
    | some n => isElemN n
    | none => false)

/-- Paths of strict descendants of the node at `p`, in document order. -/
def descendantPathsOf (root : Node) (p : List Nat) : List (List Nat) :=
  match getNodePath p root with
  | some n => ((subPaths n).drop 1).map (fun q => p ++ q)
  | none => []

mutual
/-- All strict descendant nodes of a node, document order (`find_all` universe). -/
def descNodes : Node → List Node
  | .text _ => []
  | .elem _ _ cs => descNodesL cs

def descNodesL : List Node → List Node
  | [] => []
  | c :: cs => c :: descNodes c ++ descNodesL cs
end

/-- `tag.find_all(name)` restricted to a tag name. -/
def findAllTag (n : Node) (tag : String) : List Node :=
  (descNodes n).filter (fun c => tagOf c == some tag)

/-! ## Record types (`jdk_scraper.JEP`, shared by the generator) -/

/-- Java Enhancement Proposal record.  `examples` is an ordered list of
string dictionaries with keys such as `title` and `content`. -/
structure JEP where
  number : String
  title : String
  description : String
  examples : List (List (String × String))
deriving DecidableEq, Repr

/-! ## The concrete regular expressions of `_extract_jeps`

Compiled by hand to character-list scanners, preserving leftmost-match and
greedy/backtracking behaviour of the specific patterns. -/

/-- After the literal `jep`: the rest of the pattern `jep`, optional `s`,
a slash-or-dash separator, then the captured digit group.
The greedy optional `s` is tried first; if the separator then fails the
engine retries without it, which can only succeed when the next character
is itself a separator. -/
def jepDigitsAfterSep : List Char → Option (List Char)
  | c :: r =>
    if c = '/' || c = '-' then
      match r.takeWhile isDigitC with
      | [] => none
      | ds => some ds
    else none
  | [] => none

def jepAfterStem : List Char → Option (List Char)
  | 's' :: r => jepDigitsAfterSep r
  | l => jepDigitsAfterSep l

/-- `re.search` for the jep-number href pattern (`jep`, optional `s`,
slash-or-dash, digits): the captured digit group of the leftmost match,
on an already-lowercased string. -/
def jepHrefNum : List Char → Option String
  | c1 :: c2 :: c3 :: rest =>
    if c1 = 'j' && c2 = 'e' && c3 = 'p' then
      match jepAfterStem rest with
      | some ds => some ⟨ds⟩
      | none => jepHrefNum (c2 :: c3 :: rest)
    else jepHrefNum (c2 :: c3 :: rest)
  | _ => none

/-- `re.search(r'^jep\s*\d+', text, re.IGNORECASE)` viewed as a Boolean. -/
def textStartsJep (s : String) : Bool :=
  match s.data with
  | c1 :: c2 :: c3 :: rest =>
    ciEq c1 'j' && ciEq c2 'e' && ciEq c3 'p' &&
      (match rest.dropWhile isPyWs with
       | c :: _ => isDigitC c
       | [] => false)
  | _ => false

/-- `re.search(r'jep\s*(\d+)[:\s]*(.*)', text, re.IGNORECASE)`: the two
captured groups of the leftmost match (`.*` stops at a newline). -/
def textJepParse : List Char → Option (String × String)
  | c1 :: c2 :: c3 :: rest =>
    if ciEq c1 'j' && ciEq c2 'e' && ciEq c3 'p' then
      let r1 := rest.dropWhile isPyWs
      match r1.takeWhile isDigitC with
      | [] => textJepParse (c2 :: c3 :: rest)
      | ds =>
        let r2 := (r1.dropWhile isDigitC).dropWhile (fun c => c = ':' || isPyWs c)
        some (⟨ds⟩, ⟨r2.takeWhile (fun c => c ≠ '\n')⟩)
    else textJepParse (c2 :: c3 :: rest)
  | _ => none

/-- `re.sub(r'^jep\s*\d+[:\s]*', '', title, flags=re.IGNORECASE)`:
strips a leading `JEP <num>[: ]` marker when present. -/
def stripJepLead (s : String) : String :=
  match s.data with
  | c1 :: c2 :: c3 :: rest =>
    if ciEq c1 'j' && ciEq c2 'e' && ciEq c3 'p' then
      let r1 := rest.dropWhile isPyWs
      match r1.takeWhile isDigitC with
      | [] => s
      | _ => ⟨(r1.dropWhile isDigitC).dropWhile (fun c => c = ':' || isPyWs c)⟩
    else s
  | _ => s

/-! ## `JDKScraper._extract_jeps` -/

/-- The ordered heading phrases tried by Phase 1 (source lines 91-97). -/
def sectionsToTry (version : String) : List String :=
  ["features in jdk " ++ version,
   "jdk " ++ version ++ " features",
   "features",
   "jeps",
   "jdk " ++ version ++ " jeps"]

def headingTags : List String := ["h1", "h2", "h3", "h4"]

def containerTags : List String := ["div", "section", "article", "ul", "ol"]

/-- `soup.find(['h1','h2','h3','h4'], string=lambda t: t and sec in t.lower())`:
first heading element in document order whose `.string` contains the
section phrase case-insensitively. -/
def findHeading (root : Node) (sec : String) : Option (List Nat) :=
  (descPaths root).find? (fun q =>
    match getNodePath q root with
    | some n =>
      (match tagOf n with
       | some t => headingTags.contains t
       | none => false) &&
      (match nodeString n with
       | some s => strContains (pyLower s) (pyLower sec)
       | none => false)
    | none => false)

/-- `heading.find_next(['div','section','article','ul','ol']) or heading.parent`. -/
def containerOf (root : Node) (headingPath : List Nat) : List Nat :=
  (findNextTagIn root headingPath containerTags).getD headingPath.dropLast

/-- `container.find_all('a', href=True)`: descendant anchors carrying an
`href` attribute, in document order. -/
def linkPathsIn (root : Node) (containerPath : List Nat) : List (List Nat) :=
  (descendantPathsOf root containerPath).filter (fun q =>
    match getNodePath q root with
    | some n => tagOf n == some "a" && (getAttr n "href").isSome
    | none => false)

/-- Title cleanup of Phase 1 (source lines 139-140): an empty title, or one
that itself starts with `jep`, is replaced by the synthesized form. -/
def cleanTitle (num title : String) : String :=
  if title == "" || startsWithL (pyLower title) "jep" then "JEP " ++ num else title

/-- Description lookup of Phase 1 (source lines 142-146): `link.find_next()`
and its text when that next element is a paragraph. -/
def descriptionFor (root : Node) (q : List Nat) : String :=
  match findNextElemPath root q with
  | some p =>
    match getNodePath p root with
    | some n => if tagOf n == some "p" then getTextStrip n else ""
    | none => ""
  | none => ""

/-- The record Phase 1 would build from the link at path `q`, before
deduplication (source lines 110-153, minus the `seen_jeps` check). -/
def phase1LinkCandidate (root : Node) (q : List Nat) : Option JEP :=
  match getNodePath q root with
  | none => none
  | some link =>
    let href := pyLower ((getAttr link "href").getD "")
    let text := getTextStrip link
    if href == "" || text == "" then none
    else
      match jepHrefNum href.data with
      | some num =>
        some { number := num, title := cleanTitle num text,
               description := descriptionFor root q, examples := [] }
      | none =>
        if textStartsJep text then
          match textJepParse text.data with
          | some (num, rawTitle) =>
            some { number := num, title := cleanTitle num (pyStrip rawTitle),
                   description := descriptionFor root q, examples := [] }
          | none => none
        else none

/-- The `seen_jeps` deduplication step shared by both phases: a candidate
whose number was already seen is dropped, otherwise it is appended and its
number recorded. -/
def dedupFold (st : List JEP × List String) (cand : Option JEP) : List JEP × List String :=
  match cand with
  | none => st
  | some j => if st.2.contains j.number then st else (st.1 ++ [j], st.2 ++ [j.number])

/-- One iteration of the Phase 1 `for section_text in sections_to_try` loop. -/
def sectionStep (root : Node) (st : List JEP × List String) (sec : String) :
    List JEP × List String :=
  match findHeading root sec with
  | none => st
  | some h =>
    (linkPathsIn root (containerOf root h)).foldl
      (fun st q => dedupFold st (phase1LinkCandidate root q)) st

/-- Phase 1 of `_extract_jeps`: section-scoped extraction. -/
def phase1 (root : Node) (version : String) : List JEP × List String :=
  (sectionsToTry version).foldl (sectionStep root) ([], [])

/-- `soup.find_all` over anchors whose `href` matches the jep-number
pattern case-insensitively (source line 158). -/
def phase2Links (root : Node) : List (List Nat) :=
  (descPaths root).filter (fun q =>
    match getNodePath q root with
    | some n =>
      tagOf n == some "a" &&
      (match getAttr n "href" with
       | some v => (jepHrefNum (pyLower v).data).isSome
       | none => false)
    | none => false)

/-- The record Phase 2 would build from the link at path `q`, before
deduplication (source lines 159-183, minus the `seen_jeps` check). -/
def phase2LinkCandidate (root : Node) (q : List Nat) : Option JEP :=
  match getNodePath q root with
  | none => none
  | some link =>
    let href := (getAttr link "href").getD ""
    let text := getTextStrip link
    if href == "" || text == "" then none
    else
      match jepHrefNum (pyLower href).data with
      | some num =>
        let t1 := if startsWithL (pyLower text) "jep" then pyStrip (stripJepLead text) else text
        some { number := num, title := if t1 == "" then "JEP " ++ num else t1,
               description := "", examples := [] }
      | none => none

/-- `JDKScraper._extract_jeps`: Phase 1 over the heading phrases, then,
only when it produced nothing, the document-wide Phase 2 continuing with
the same `seen_jeps` state. -/
def extract_jeps (root : Node) (version : String) : List JEP :=
  let st := phase1 root version
  if st.1.isEmpty then
    ((phase2Links root).foldl (fun s q => dedupFold s (phase2LinkCandidate root q)) st).1
  else st.1

/-! ## Date values: `datetime.strptime` validation and `strftime('%Y-%m-%d')`

A parsed date is a `(year, month, day)` triple.  `datetime.strptime`
only accepts years 1..9999, months 1..12 and days valid for the month
(Gregorian leap rule); `strftime('%Y-%m-%d')` zero-pads to 4-2-2 digits. -/

def DateT := Nat × Nat × Nat
deriving DecidableEq, Repr

def isLeapYear (y : Nat) : Bool := (y % 4 == 0 && y % 100 != 0) || y % 400 == 0

def daysInMonth (y m : Nat) : Nat :=
  if m == 2 then (if isLeapYear y then 29 else 28)
  else if m == 4 || m == 6 || m == 9 || m == 11 then 30
  else 31

/-- The constraints `datetime` places on a year-month-day triple. -/
def validDate (y m d : Nat) : Bool :=
  1 ≤ y && y ≤ 9999 && 1 ≤ m && m ≤ 12 && 1 ≤ d && d ≤ daysInMonth y m

/-- `datetime(...)` construction: reject invalid components. -/
def checkDate (t : DateT) : Option DateT :=
  if validDate t.1 t.2.1 t.2.2 then some t else none

def digitChar (n : Nat) : Char := Char.ofNat (48 + n)

/-- Exactly `w` decimal digits of `n`, zero-padded (the `strftime`
zero-padded numeric fields). -/
def padNum : Nat → Nat → List Char
  | 0, _ => []
  | w + 1, n => padNum w (n / 10) ++ [digitChar (n % 10)]

/-- `date.strftime('%Y-%m-%d')`. -/
def formatDate (t : DateT) : String :=
  ⟨padNum 4 t.1 ++ '-' :: (padNum 2 t.2.1 ++ '-' :: padNum 2 t.2.2)⟩

/-- The shape `\d\d\d\d-\d\d-\d\d`. -/
def dateShapeL : List Char → Bool
  | [a, b, c, d, s1, e, f, s2, g, h] =>
    isDigitC a && isDigitC b && isDigitC c && isDigitC d && s1 == '-' &&
      isDigitC e && isDigitC f && s2 == '-' && isDigitC g && isDigitC h
  | _ => false

def dateShape (s : String) : Bool := dateShapeL s.data

/-! ## Numeric date scanning

strptime field semantics: `%Y` is exactly four digits, `%m`/`%d` are one
or two digits with the engine backtracking from two digits to one when
the following literal fails. -/

def digitsVal (ds : List Char) : Nat := ds.foldl (fun a c => a * 10 + (c.toNat - 48)) 0

/-- Exactly `n` leading digits and the remainder. -/
def digitsTake : Nat → List Char → Option (List Char × List Char)
  | 0, l => some ([], l)
  | n + 1, c :: r =>
    if isDigitC c then (digitsTake n r).map (fun p => (c :: p.1, p.2)) else none
  | _ + 1, [] => none

/-- One or two digits followed by the literal `stop` (two tried first). -/
def num2or1Then (stop : Char) (l : List Char) : Option (List Char × List Char) :=
  match digitsTake 2 l with
  | some (ds, c :: r) =>
    if c = stop then some (ds, r)
    else
      match digitsTake 1 l with
      | some (ds1, c1 :: r1) => if c1 = stop then some (ds1, r1) else none
      | _ => none
  | _ =>
    match digitsTake 1 l with
    | some (ds1, c1 :: r1) => if c1 = stop then some (ds1, r1) else none
    | _ => none

/-- One or two digits ending the string (`strptime` must consume all input). -/
def num2or1End (l : List Char) : Option (List Char) :=
  match digitsTake 2 l with
  | some (ds, []) => some ds
  | _ =>
    match digitsTake 1 l with
    | some (ds, []) => some ds
    | _ => none

/-- `datetime.strptime(s, '%Y<sep>%m<sep>%d')` on a whole string, without
the range validation (which `checkDate` performs). -/
def rawYMD (sep : Char) (l : List Char) : Option DateT :=
  match digitsTake 4 l with
  | some (ys, c1 :: r1) =>
    if c1 = sep then
      match num2or1Then sep r1 with
      | some (ms, r2) =>
        match num2or1End r2 with
        | some ds => some (digitsVal ys, digitsVal ms, digitsVal ds)
        | none => none
      | none => none
    else none
  | _ => none

/-- `datetime.strptime(s, '%Y/%m/%d')` (milestone-table cells). -/
def parseSlashDate (s : String) : Option DateT := (rawYMD '/' s.data).bind checkDate

/-- `datetime.strptime(s, '%Y-%m-%d')`. -/
def parseDashDate (s : String) : Option DateT := (rawYMD '-' s.data).bind checkDate

def monthFullNames : List String :=
  ["january", "february", "march", "april", "may", "june",
   "july", "august", "september", "october", "november", "december"]

def monthAbbrevNames : List String :=
  ["jan", "feb", "mar", "apr", "may", "jun", "jul", "aug", "sep", "oct", "nov", "dec"]

def monthIndex (names : List String) (w : String) : Option Nat :=
  (names.findIdx? (fun n => pyLower w == n)).map (· + 1)

/-- `datetime.strptime(s, '%B %d, %Y')` (or `%b` with the abbreviated
name list): month name, day, comma, space, four-digit year, whole string;
again without the range validation. -/
def rawMonthName (names : List String) (l : List Char) : Option DateT :=
  let w := l.takeWhile (fun c => c ≠ ' ')
  match monthIndex names ⟨w⟩ with
  | some m =>
    match l.drop w.length with
    | ' ' :: r1 =>
      match num2or1Then ',' r1 with
      | some (ds, ' ' :: r3) =>
        match digitsTake 4 r3 with
        | some (ys, []) => some (digitsVal ys, m, digitsVal ds)
        | _ => none
      | _ => none
    | _ => none
  | none => none

def parseMonthFull (s : String) : Option DateT :=
  (rawMonthName monthFullNames s.data).bind checkDate

def parseMonthAbbrev (s : String) : Option DateT :=
  (rawMonthName monthAbbrevNames s.data).bind checkDate

/-- The `for fmt in ('%Y-%m-%d', '%B %d, %Y', '%b %d, %Y')` loop of the
generic-pattern fallback (source lines 247-252). -/
def tryFormats (s : String) : Option DateT :=
  match parseDashDate s with
  | some d => some d
  | none =>
    match parseMonthFull s with
    | some d => some d
    | none => parseMonthAbbrev s

/-- `.replace('/', '-')` before parsing. -/
def replaceSlash (l : List Char) : List Char :=
  l.map (fun c => if c = '/' then '-' else c)

/-! ## `JDKScraper._extract_release_date` -/

def firstSome : List (Option α) → Option α
  | [] => none
  | some a :: _ => some a
  | none :: l => firstSome l

/-- `row.find_all('td')` for milestone rows. -/
def tdCells (row : Node) : List Node := findAllTag row "td"

/-- One milestone row (source lines 201-210): at least three cells, the
third containing the exact text `General Availability`, and the first
parsing as a slash date; a parse failure skips the row (`continue`). -/
def rowCandidate (row : Node) : Option DateT :=
  match (tdCells row).get? 2, (tdCells row).get? 0 with
  | some c2, some c0 =>
    if strContains (getText c2) "General Availability" then
      parseSlashDate (pyStrip (getText c0))
    else none
  | _, _ => none

/-- The milestone rows scanned by strategy 1: every `tr.milestone` row of
every `table.milestones` table, document order. -/
def milestoneRows (root : Node) : List Node :=
  ((descNodes root).filter (fun n => tagOf n == some "table" && hasClass n "milestones")).flatMap
    (fun t => (descNodes t).filter (fun n => tagOf n == some "tr" && hasClass n "milestone"))

/-- Strategy 1: first milestone General Availability row that parses. -/
def milestoneStrategy (root : Node) : Option DateT :=
  firstSome ((milestoneRows root).map rowCandidate)

/-! ### Regex scanners for strategies 2 and 3

Each pattern is compiled to a scanner over the flattened document text.
`scanGeneric` walks positions left to right carrying the previous
character (for the `\b` word-boundary assertions) and returns the first
position where the position-matcher succeeds, i.e. the leftmost match. -/

def boundaryBefore : Option Char → Bool
  | none => true
  | some c => !isWordC c

def boundaryAfter : List Char → Bool
  | [] => true
  | c :: _ => !isWordC c

def scanGeneric (pAt : List Char → Option (List Char)) :
    Option Char → List Char → Option (List Char)
  | _, [] => none
  | prev, c :: cs =>
    match (if boundaryBefore prev then pAt (c :: cs) else none) with
    | some g => some g
    | none => scanGeneric pAt (some c) cs

/-- The numeric date group: four digits, separator, one-or-two digits,
separator, one-or-two digits taken greedily, with no trailing assertion. -/
def numDate (l : List Char) : Option (List Char) :=
  match digitsTake 4 l with
  | some (ys, c1 :: r1) =>
    if c1 = '/' || c1 = '-' then
      match num2or1Then2 r1 with
      | some (ms, s2, r2) =>
        match digitsTake 2 r2 with
        | some (ds, _) => some (ys ++ c1 :: ms ++ s2 :: ds)
        | none =>
          match digitsTake 1 r2 with
          | some (ds, _) => some (ys ++ c1 :: ms ++ s2 :: ds)
          | none => none
      | none => none
    else none
  | _ => none
where
  /-- month digits plus the separator that follows them. -/
  num2or1Then2 (l : List Char) : Option (List Char × Char × List Char) :=
    match digitsTake 2 l with
    | some (ds, c :: r) =>
      if c = '/' || c = '-' then some (ds, c, r)
      else
        match digitsTake 1 l with
        | some (ds1, c1 :: r1) => if c1 = '/' || c1 = '-' then some (ds1, c1, r1) else none
        | _ => none
    | _ =>
      match digitsTake 1 l with
      | some (ds1, c1 :: r1) => if c1 = '/' || c1 = '-' then some (ds1, c1, r1) else none
      | _ => none

/-- As `numDate` but with a trailing `\b`: the day part must be followed
by a non-word character (or the end), backtracking two digits to one. -/
def numDateB (l : List Char) : Option (List Char) :=
  match digitsTake 4 l with
  | some (ys, c1 :: r1) =>
    if c1 = '/' || c1 = '-' then
      match numDate.num2or1Then2 r1 with
      | some (ms, s2, r2) =>
        match digitsTake 2 r2 with
        | some (ds, rest) =>
          if boundaryAfter rest then some (ys ++ c1 :: ms ++ s2 :: ds)
          else
            match digitsTake 1 r2 with
            | some (ds1, rest1) =>
              if boundaryAfter rest1 then some (ys ++ c1 :: ms ++ s2 :: ds1) else none
            | none => none
        | none =>
          match digitsTake 1 r2 with
          | some (ds1, rest1) =>
            if boundaryAfter rest1 then some (ys ++ c1 :: ms ++ s2 :: ds1) else none
          | none => none
      | none => none
    else none
  | _ => none

/-- Strategy 2 (source lines 216-220): the leftmost
`General Availability`, optional colon, then a numeric date group; no
word-boundary assertions in this pattern. -/
def gaScan : List Char → Option (List Char)
  | [] => none
  | c :: cs =>
    if ciLeadsWith ("general availability".data) (c :: cs) then
      let r := (c :: cs).drop 20
      let r1 := r.dropWhile isPyWs
      let r2 := match r1 with
                | ':' :: t => t
                | _ => r1
      match numDate (r2.dropWhile isPyWs) with
      | some g => some g
      | none => gaScan cs
    else gaScan cs

/-- Strategy 2 including the `%Y-%m-%d` parse after `.replace('/', '-')`;
a parse failure falls through (`pass`) to the generic patterns. -/
def gaStrategy (text : List Char) : Option DateT :=
  (gaScan text).bind (fun g => parseDashDate ⟨replaceSlash g⟩)

/-- Generic pattern 1: optional `Release `, then `Date`, optional
whitespace, one colon-or-equals, whitespace, numeric date, trailing `\b`. -/
def p1At (l : List Char) : Option (List Char) :=
  let afterLit :=
    if ciLeadsWith ("release date".data) l then some (l.drop 12)
    else if ciLeadsWith ("date".data) l then some (l.drop 4)
    else none
  match afterLit with
  | some r =>
    match r.dropWhile isPyWs with
    | c :: r2 =>
      if c = ':' || c = '=' then numDateB (r2.dropWhile isPyWs) else none
    | [] => none
  | none => none

/-- Lazy `.*?` before a numeric date with trailing `\b`: the first
position at which the date group matches. -/
def dateScanB : List Char → Option (List Char)
  | [] => none
  | c :: cs =>
    match numDateB (c :: cs) with
    | some g => some g
    | none => dateScanB cs

/-- Generic pattern 2: `GA` or `General Availability`, then lazily
anything, then a numeric date with trailing `\b`. -/
def p2At (l : List Char) : Option (List Char) :=
  let afterLit :=
    if ciLeadsWith ("ga".data) l then some (l.drop 2)
    else if ciLeadsWith ("general availability".data) l then some (l.drop 20)
    else none
  afterLit.bind dateScanB

/-- Day digits followed by a comma (two digits tried before one). -/
def dayComma (l : List Char) : Option (List Char × List Char) :=
  match digitsTake 2 l with
  | some (ds, ',' :: r) => some (ds, r)
  | _ =>
    match digitsTake 1 l with
    | some (ds, ',' :: r) => some (ds, r)
    | _ => none

/-- The `\w+ \d{1,2}, \d{4}` group with trailing `\b`, shared by generic
patterns 3 and 4. -/
def monthWordGroup (l : List Char) : Option (List Char) :=
  let w := l.takeWhile isWordC
  if w.isEmpty then none
  else
    match l.drop w.length with
    | ' ' :: r1 =>
      match dayComma r1 with
      | some (ds, ' ' :: r3) =>
        match digitsTake 4 r3 with
        | some (ys, rest) =>
          if boundaryAfter rest then some (w ++ ' ' :: ds ++ ',' :: ' ' :: ys) else none
        | none => none
      | _ => none
    | _ => none

/-- Generic pattern 3: `GA` or `General Availability`, whitespace,
optional `on `, then a month-word date group. -/
def p3At (l : List Char) : Option (List Char) :=
  let afterLit :=
    if ciLeadsWith ("ga".data) l then some (l.drop 2)
    else if ciLeadsWith ("general availability".data) l then some (l.drop 20)
    else none
  match afterLit with
  | some r =>
    let wsRun := r.takeWhile isPyWs
    if wsRun.isEmpty then none
    else
      let r1 := r.drop wsRun.length
      if ciLeadsWith ("on ".data) r1 then
        match monthWordGroup (r1.drop 3) with
        | some g => some g
        | none => monthWordGroup r1
      else monthWordGroup r1
  | none => none

/-- Generic pattern 4: `Released on` or `as of`, whitespace, then a
month-word date group. -/
def p4At (l : List Char) : Option (List Char) :=
  let afterLit :=
    if ciLeadsWith ("released on".data) l then some (l.drop 11)
    else if ciLeadsWith ("as of".data) l then some (l.drop 5)
    else none
  match afterLit with
  | some r =>
    let wsRun := r.takeWhile isPyWs
    if wsRun.isEmpty then none else monthWordGroup (r.drop wsRun.length)
  | none => none

/-- The generic-pattern loop (source lines 233-254): for each pattern in
order, the first match's group is put through the format loop; a group
that parses under no format moves on to the next pattern. -/
def strat3 (text : List Char) : Option DateT :=
  firstSome
    [(scanGeneric p1At none text).bind (fun g => tryFormats ⟨replaceSlash g⟩),
     (scanGeneric p2At none text).bind (fun g => tryFormats ⟨replaceSlash g⟩),
     (scanGeneric p3At none text).bind (fun g => tryFormats ⟨replaceSlash g⟩),
     (scanGeneric p4At none text).bind (fun g => tryFormats ⟨replaceSlash g⟩)]

/-- `JDKScraper._extract_release_date`: milestone table first, then the
inline General Availability phrase, then the generic patterns, each
winner rendered with `strftime('%Y-%m-%d')`. -/
def extract_release_date (root : Node) : Option String :=
  match milestoneStrategy root with
  | some d => some (formatDate d)
  | none =>
    let text := (getText root).data
    match gaStrategy text with
    | some d => some (formatDate d)
    | none => (strat3 text).map formatDate

/-! ## `JDKScraper.get_jdk_release_info` (the fetch-and-assemble orchestrator)

The HTTP fetch is the one effectful step; it is modelled by its outcome.
`requests.get` plus `raise_for_status` either yields a parsed document or
raises a `requests.RequestException` (HTTP error status, connection
error, or timeout), all of which the source catches. -/

inductive FetchOutcome where
  | success (soup : Node)
  | httpError (status : Nat)
  | connectionError
  | timeout

/-- The result dictionary assembled on a successful fetch. -/
structure ReleaseInfo where
  version : String
  release_date : String
  tagline : String
  jeps : List JEP

/-- `JDKScraper.get_jdk_release_info` (source lines 41-74): on success the
extractors run and the bundle is assembled (with the version-templated
fallback date and default tagline); every caught transport failure
returns `None`. -/
def get_jdk_release_info (version : String) (outcome : FetchOutcome) : Option ReleaseInfo :=
  match outcome with
  | .success soup =>
    some { version := version,
           release_date := (extract_release_date soup).getD (version ++ "-03-01"),
           tagline := "The Future of Java",
           jeps := extract_jeps soup version }
  | .httpError _ => none
  | .connectionError => none
  | .timeout => none

/-! ## `_create_sample_jdk_release` (the deterministic sample fallback) -/

structure JDKRelease where
  version : String
  release_date : String
  tagline : String
  jeps : List JEP
deriving DecidableEq, Repr

/-- `JDKRelease.add_jep`: append-only proposal list. -/
def add_jep (r : JDKRelease) (j : JEP) : JDKRelease := { r with jeps := r.jeps ++ [j] }

/-- Python `str.isdigit()` on ASCII text. -/
def pyIsDigit (s : String) : Bool := !s.data.isEmpty && s.data.all isDigitC

def sampleJep1 : JEP :=
  { number := "123",
    title := "Pattern Matching for switch (Preview)",
    description := "Enhance the Java programming language with pattern matching for switch expressions and statements.",
    examples := [[("title", "Basic Pattern Matching in Switch"),
      ("content", "String response = switch (obj) \x7b\n    case Integer i -> String.format(\"int %d\", i);\n    case String s -> String.format(\"String %s\", s);\n    default -> obj.toString();\n\x7d;")]] }

def sampleJep2 : JEP :=
  { number := "456",
    title := "Virtual Threads (Second Preview)",
    description := "Introduce virtual threads to the Java Platform.",
    examples := [[("title", "Creating Virtual Threads"),
      ("content", "// Create a virtual thread\nThread.startVirtualThread(() -> \x7b\n    System.out.println(\"Hello from virtual thread!\");\n\x7d);")]] }

def sampleJep3 : JEP :=
  { number := "789",
    title := "Structured Concurrency (Incubator)",
    description := "Simplify multithreaded programming by treating multiple tasks running in different threads as a single unit of work.",
    examples := [[("title", "Structured Concurrency Example"),
      ("content", "try (var scope = StructuredTaskScope.ShutdownOnFailure()) \x7b\n    Future<String> user = scope.fork(() -> findUser());\n    Future<Integer> order = scope.fork(() -> fetchOrder());\n    \n    scope.join();\n    return new Response(user.resultNow(), order.resultNow());\n\x7d")]] }

/-- `_create_sample_jdk_release` (generator source lines 42-102): the
hand-authored sample release used whenever scraping fails or yields
nothing. -/
def sample_jdk_release (version tagline : String) : JDKRelease :=
  let release : JDKRelease :=
    { version := version,
      release_date := if pyIsDigit version then version ++ "-10-22" else "2024-10-22",
      tagline := tagline,
      jeps := [] }
  add_jep (add_jep (add_jep release sampleJep1) sampleJep2) sampleJep3

/-! ## `JDKPresentationGenerator` (slide deck construction)

A presentation is modelled as the ordered list of slides appended to the
initially empty document; the geometry and styling applied to each slide
are external to the claims. -/

inductive Slide where
  | titleSlide (title subtitle : String)
  | jepSlide (number title : String)
  | exampleSlide (title content : String)
deriving DecidableEq, Repr

/-- Python `dict.get(key, '')` for the example dictionaries. -/
def dictGet (d : List (String × String)) (k : String) : String :=
  ((d.find? (fun kv => kv.1 == k)).map (·.2)).getD ""

/-- `create_title_slide` (generator source lines 45-55). -/
def create_title_slide (slides : List Slide) (r : JDKRelease) : List Slide :=
  slides ++ [Slide.titleSlide ("JAVA " ++ r.version)
    (r.tagline ++ " (Release date " ++ r.release_date ++ ")")]

/-- `enumerate(examples, 1)`. -/
def enumFrom (i : Nat) : List α → List (Nat × α)
  | [] => []
  | a :: l => (i, a) :: enumFrom (i + 1) l

def exampleTitle (num : String) (i : Nat) : String :=
  "JEP " ++ num ++ " Example " ++ toString i

def exampleContent (ex : List (String × String)) : String :=
  dictGet ex "title" ++ "\n\n" ++ dictGet ex "content"

/-- `create_jep_slide` (source lines 57-77): the proposal slide, then one
example slide per example, in order. -/
def create_jep_slide (slides : List Slide) (j : JEP) : List Slide :=
  let s1 := slides ++ [Slide.jepSlide j.number j.title]
  if j.examples.isEmpty then s1
  else
    (enumFrom 1 j.examples).foldl
      (fun acc p => acc ++ [Slide.exampleSlide (exampleTitle j.number p.1) (exampleContent p.2)])
      s1

/-- `generate_jdk_presentation` (source lines 86-96): title slide, then
the per-proposal slides in list order. -/
def generate_jdk_presentation (r : JDKRelease) : List Slide :=
  r.jeps.foldl create_jep_slide (create_title_slide [] r)

/-- The slides contributed by a single proposal. -/
def jepSlides (j : JEP) : List Slide :=
  Slide.jepSlide j.number j.title ::
    (enumFrom 1 j.examples).map
      (fun p => Slide.exampleSlide (exampleTitle j.number p.1) (exampleContent p.2))

/-! ## Spec-side characterisations

These definitions follow the specification's words (first-seen-wins
deduplication over a candidate stream; the "immediately following sibling
element" of a link) and are compared with the source-compiled functions
above. -/

/-- First-occurrence-wins deduplication by proposal number, as the spec
describes the `seen_jeps` behaviour: later candidates with an
already-seen identifier are dropped, output order is discovery order. -/
def specDedup : List String → List (Option JEP) → List JEP
  | _, [] => []
  | seen, none :: cs => specDedup seen cs
  | seen, some j :: cs =>
    if seen.contains j.number then specDedup seen cs
    else j :: specDedup (seen ++ [j.number]) cs

/-- The candidate records one Phase 1 section contributes, pre-dedup. -/
def phase1SectionCands (root : Node) (sec : String) : List (Option JEP) :=
  match findHeading root sec with
  | none => []
  | some h => (linkPathsIn root (containerOf root h)).map (phase1LinkCandidate root)

/-- All Phase 1 candidates, across the heading phrases in order. -/
def phase1Cands (root : Node) (v : String) : List (Option JEP) :=
  (sectionsToTry v).flatMap (phase1SectionCands root)

/-- All Phase 2 candidates, document order. -/
def phase2Cands (root : Node) : List (Option JEP) :=
  (phase2Links root).map (phase2LinkCandidate root)

/-- The candidate stream the extractor deduplicates: Phase 1's candidates
or, exactly when Phase 1 produced nothing, Phase 2's. -/
def extractionStream (root : Node) (v : String) : List (Option JEP) :=
  if (phase1 root v).1.isEmpty then phase2Cands root else phase1Cands root v

/-- The spec's notion for C3: the immediately following sibling element of
the node at `p` (what `find_next_sibling()` would return), as opposed to
the source's `find_next()` document-order lookup. -/
def nextSiblingElem (root : Node) (p : List Nat) : Option Node :=
  match p.getLast?, getNodePath p.dropLast root with
  | some i, some parent => ((childrenOf parent).drop (i + 1)).find? isElemN
  | _, _ => none

/-! ## Concrete documents used by the counterexamples and witnesses -/

/-- The scenario document of C1: a heading `Features in JDK 25` followed
by a container holding one link to `/jeps/456` with the visible text
`JEP 456: Virtual Threads`. -/
def c1Doc : Node :=
  .elem "[document]" [] [
    .elem "h2" [] [.text "Features in JDK 25"],
    .elem "div" [] [.elem "a" [("href", "/jeps/456")] [.text "JEP 456: Virtual Threads"]]]

/-- A milestone table whose General Availability row spells the phrase in
lower case: a case-insensitive match would accept it. -/
def c2Doc : Node :=
  .elem "[document]" [] [
    .elem "table" [("class", "milestones")] [
      .elem "tr" [("class", "milestone")] [
        .elem "td" [] [.text "2025/09/16"],
        .elem "td" [] [.text "-"],
        .elem "td" [] [.text "general availability"]]]]

def c2wCell0 : Node := .elem "td" [] [.text "2025/09/16"]

def c2wCell2 : Node := .elem "td" [] [.text "General Availability"]

def c2wRow : Node :=
  .elem "tr" [("class", "milestone")] [c2wCell0, .elem "td" [] [.text "-"], c2wCell2]

/-- A milestone table with a properly-spelled General Availability row. -/
def c2wDoc : Node :=
  .elem "[document]" [] [.elem "table" [("class", "milestones")] [c2wRow]]

/-- A section whose link wraps its text in a nested element and is
directly followed by a paragraph sibling. -/
def c3Doc : Node :=
  .elem "[document]" [] [
    .elem "h2" [] [.text "JEPs"],
    .elem "div" [] [
      .elem "a" [("href", "/jeps/456")] [.elem "b" [] [.text "X"]],
      .elem "p" [] [.text "Desc"]]]

/-- A link whose next element in document order is a paragraph. -/
def c3wDoc : Node :=
  .elem "[document]" [] [
    .elem "div" [] [
      .elem "a" [("href", "/jeps/9")] [.text "T"],
      .elem "p" [] [.text "D"]]]

def c3wJep : JEP := { number := "9", title := "T", description := "D", examples := [] }

/-- A document whose heading section yields one proposal while a second
proposal link sits outside the section, visible only to Phase 2. -/
def c4Doc : Node :=
  .elem "[document]" [] [
    .elem "h2" [] [.text "JEPs"],
    .elem "ul" [] [.elem "a" [("href", "/jeps/456")] [.text "One feature"]],
    .elem "a" [("href", "/jeps/999")] [.text "Another feature"]]

/-- A document with both an inline `General Availability: 2024-01-01`
phrase and a milestone-table General Availability row dated 2025/09/16. -/
def c6Doc : Node :=
  .elem "[document]" [] [
    .text "General Availability: 2024-01-01 ",
    .elem "table" [("class", "milestones")] [
      .elem "tr" [("class", "milestone")] [
        .elem "td" [] [.text "2025/09/16"],
        .elem "td" [] [.text "-"],
        .elem "td" [] [.text "General Availability"]]]]

/-- A document whose only date is a labelled one with single-digit month
and day and slash separators. -/
def c10Doc : Node := .elem "[document]" [] [.text "Release Date: 2025/3/5"]

/-! # Theorems -/

/-! ## C1: the heading-plus-link scenario -/

/-- C1 fails on the code: on the scenario document (heading
`Features in JDK 25`, container with one link `/jeps/456` titled
`JEP 456: Virtual Threads`) the extractor does return a single record
with identifier `456`, but its title is the synthesized `JEP 456`, not
the stripped `Virtual Threads` the claim states. -/
theorem c1_counterexample :
    (extract_jeps c1Doc "25").map (fun j => (j.number, j.title)) = [("456", "JEP 456")] ∧
    ("456", "JEP 456") ≠ ("456", "Virtual Threads") := by
  exact ⟨by decide, by decide⟩

/-- C1 (amended): on the scenario document the Proposal Extractor returns
exactly one record with identifier `456` and the synthesized title
`JEP 456` (Phase 1 replaces any link title that itself starts with `JEP`),
with empty description and no examples. -/
theorem c1_extraction :
    extract_jeps c1Doc "25" =
      [{ number := "456", title := "JEP 456", description := "", examples := [] }] := by
  decide

/-! ## C2: the milestone-row match is case-sensitive -/

/-- C2 fails on the code: `c2Doc` has exactly one milestone row, whose
third cell reads `general availability` — a case-insensitive substring
match for `General Availability`, with a first cell that parses as a
slash date — yet the Date Extractor returns nothing, because the source's
`'General Availability' in cells[2].get_text()` test is case-sensitive. -/
theorem c2_counterexample :
    (milestoneRows c2Doc).map (fun r => (tdCells r).map getText) =
      [["2025/09/16", "-", "general availability"]] ∧
    strContains (pyLower "general availability") (pyLower "General Availability") = true ∧
    parseSlashDate (pyStrip "2025/09/16") = some (2025, 9, 16) ∧
    extract_release_date c2Doc = none := by
  exact ⟨by decide, by decide, by decide, by decide⟩

theorem firstSome_append_none (l1 l2 : List (Option α))
    (h : ∀ o ∈ l1, o = none) : firstSome (l1 ++ l2) = firstSome l2 := by
  induction l1 with
  | nil => rfl
  | cons o l ih =>
    have ho := h o (by simp)
    subst ho
    exact ih fun o' ho' => h o' (by simp [ho'])

/-- C2 (amended): a milestone row is selected exactly when it has at
least three cells and the third cell's text contains
`General Availability` as a case-sensitive substring (so differently
cased variants do not match); the first row in document order that both
matches and whose first cell's stripped text parses as a `YYYY/MM/DD`
date determines the result, reformatted as `YYYY-MM-DD`. -/
theorem c2_milestone_match (root : Node) (pre rest : List Node) (r : Node)
    (c0 c2 : Node) (y m d : Nat)
    (hrows : milestoneRows root = pre ++ r :: rest)
    (hpre : ∀ r' ∈ pre, rowCandidate r' = none)
    (hc2 : (tdCells r).get? 2 = some c2)
    (hc0 : (tdCells r).get? 0 = some c0)
    (hga : strContains (getText c2) "General Availability" = true)
    (hparse : parseSlashDate (pyStrip (getText c0)) = some (y, m, d)) :
    extract_release_date root = some (formatDate (y, m, d)) := by
  have hrow : rowCandidate r = some (y, m, d) := by
    unfold rowCandidate
    rw [hc2, hc0]
    simp [hga, hparse]
  have hms : milestoneStrategy root = some (y, m, d) := by
    unfold milestoneStrategy
    rw [hrows, List.map_append]
    rw [firstSome_append_none _ _ (by
      intro o ho
      rcases List.mem_map.mp ho with ⟨r', hr', rfl⟩
      exact hpre r' hr')]
    simp [firstSome, hrow]
  simp [extract_release_date, hms]

/-- Witness for C2 (amended): on the properly-capitalised milestone table
`c2wDoc` the hypotheses hold and the extractor returns `2025-09-16`. -/
theorem c2_milestone_match_witness :
    strContains (getText c2wCell2) "General Availability" = true ∧
    parseSlashDate (pyStrip (getText c2wCell0)) = some (2025, 9, 16) ∧
    extract_release_date c2wDoc = some (formatDate (2025, 9, 16)) :=
  ⟨by decide, by decide,
    c2_milestone_match c2wDoc [] [] c2wRow c2wCell0 c2wCell2 2025 9 16
      rfl (by simp) rfl rfl (by decide) (by decide)⟩

/-! ## C3: descriptions come from `find_next`, not the sibling -/

/-- C3 fails on the code: in `c3Doc` Phase 1 records a proposal from the
link at path `[1, 0]` whose immediately following sibling element is a
paragraph with text `Desc`, yet the record's description is empty — the
source consults `link.find_next()` (the link's own nested child here),
not the sibling. -/
theorem c3_counterexample :
    phase1LinkCandidate c3Doc [1, 0] =
      some { number := "456", title := "X", description := "", examples := [] } ∧
    extract_jeps c3Doc "25" =
      [{ number := "456", title := "X", description := "", examples := [] }] ∧
    (nextSiblingElem c3Doc [1, 0]).map tagOf = some (some "p") ∧
    (nextSiblingElem c3Doc [1, 0]).map getTextStrip = some "Desc" ∧
    (extract_jeps c3Doc "25").map JEP.description ≠ ["Desc"] := by
  exact ⟨by decide, by decide, by decide, by decide, by decide⟩

/-- C3 (amended): every record Phase 1 builds from a link carries as
description the trimmed text of the first element after the link in
document order (`find_next()`) when that element is a paragraph, and the
empty string otherwise. -/
theorem c3_description_rule (root : Node) (q : List Nat) (j : JEP)
    (h : phase1LinkCandidate root q = some j) :
    j.description = descriptionFor root q := by
  unfold phase1LinkCandidate at h
  cases hn : getNodePath q root with
  | none => rw [hn] at h; exact absurd h (by simp)
  | some link =>
    rw [hn] at h
    simp only [] at h
    split at h
    · exact absurd h (by simp)
    · split at h
      · cases h
        rfl
      · split at h
        · split at h
          · cases h
            rfl
          · exact absurd h (by simp)
        · exact absurd h (by simp)

/-- Witness for C3 (amended): on `c3wDoc` the link at `[0, 0]` yields the
record `c3wJep`, whose description follows the `find_next` rule (here the
following paragraph's text `D`). -/
theorem c3_description_rule_witness :
    phase1LinkCandidate c3wDoc [0, 0] = some c3wJep ∧
    c3wJep.description = descriptionFor c3wDoc [0, 0] :=
  ⟨by decide, c3_description_rule c3wDoc [0, 0] c3wJep (by decide)⟩

/-! ## C4: Phase 1 strictly precedes Phase 2 -/

/-- C4: whenever Phase 1 (section-scoped extraction) yields at least one
proposal, the extractor's result is exactly Phase 1's record list; the
document-wide Phase 2 contributes nothing. -/
theorem c4_phase_priority (root : Node) (v : String) (h : (phase1 root v).1 ≠ []) :
    extract_jeps root v = (phase1 root v).1 := by
  cases hl : (phase1 root v).1 with
  | nil => exact absurd hl h
  | cons a l => simp [extract_jeps, hl]

/-- Witness for C4: on `c4Doc` Phase 1 finds the in-section proposal, the
final result equals Phase 1's, and yet two distinct proposal links are
present document-wide (Phase 2 would have found more). -/
theorem c4_phase_priority_witness :
    (phase1 c4Doc "25").1 ≠ [] ∧
    (phase2Links c4Doc).length = 2 ∧
    extract_jeps c4Doc "25" = (phase1 c4Doc "25").1 :=
  ⟨by decide, by decide, c4_phase_priority c4Doc "25" (by decide)⟩

/-! ## C5: deduplication by identifier, first discovery wins -/

theorem foldl_dedupFold (cs : List (Option JEP)) (l : List JEP) (seen : List String) :
    cs.foldl dedupFold (l, seen) =
      (l ++ specDedup seen cs, seen ++ (specDedup seen cs).map JEP.number) := by
  induction cs generalizing l seen with
  | nil => simp [specDedup]
  | cons c cs ih =>
    cases c with
    | none => simp [dedupFold, specDedup, ih]
    | some j =>
      by_cases hmem : j.number ∈ seen
      · simp [List.foldl_cons, dedupFold, specDedup, hmem, ih]
      · simp [List.foldl_cons, dedupFold, specDedup, hmem, ih]

theorem specDedup_nodup (cs : List (Option JEP)) (seen : List String) :
    ((specDedup seen cs).map JEP.number).Nodup ∧
    ∀ j ∈ specDedup seen cs, j.number ∉ seen := by
  induction cs generalizing seen with
  | nil => simp [specDedup]
  | cons c cs ih =>
    cases c with
    | none => simpa [specDedup] using ih seen
    | some j =>
      by_cases hmem : j.number ∈ seen
      · have heq : specDedup seen (some j :: cs) = specDedup seen cs := by
          simp [specDedup, hmem]
        rw [heq]
        exact ih seen
      · have heq : specDedup seen (some j :: cs) =
            j :: specDedup (seen ++ [j.number]) cs := by
          simp [specDedup, hmem]
        have ih2 := ih (seen ++ [j.number])
        have hnotin : j.number ∉ (specDedup (seen ++ [j.number]) cs).map JEP.number := by
          intro hmm
          rcases List.mem_map.mp hmm with ⟨a, ha, hna⟩
          have haa := ih2.2 a ha
          rw [hna] at haa
          simp at haa
        rw [heq]
        refine ⟨?_, ?_⟩
        · rw [List.map_cons, List.nodup_cons]
          exact ⟨hnotin, ih2.1⟩
        · intro a ha
          rcases List.mem_cons.mp ha with rfl | ha
          · exact hmem
          · have haa := ih2.2 a ha
            intro hin
            exact haa (List.mem_append_left _ hin)

theorem sectionStep_eq (root : Node) (st : List JEP × List String) (sec : String) :
    sectionStep root st sec = (phase1SectionCands root sec).foldl dedupFold st := by
  unfold sectionStep phase1SectionCands
  cases findHeading root sec <;> simp [List.foldl_map]

theorem foldl_section_flatMap (root : Node) (secs : List String) (st : List JEP × List String) :
    secs.foldl (sectionStep root) st =
      (secs.flatMap (phase1SectionCands root)).foldl dedupFold st := by
  induction secs generalizing st with
  | nil => simp
  | cons s secs ih =>
    simp only [List.foldl_cons, List.flatMap_cons, List.foldl_append, sectionStep_eq, ih]

theorem phase1_eq (root : Node) (v : String) :
    phase1 root v =
      (specDedup [] (phase1Cands root v),
        (specDedup [] (phase1Cands root v)).map JEP.number) := by
  unfold phase1 phase1Cands
  rw [foldl_section_flatMap, foldl_dedupFold]
  simp

/-- C5: the Proposal Extractor's output is exactly the first-seen-wins
deduplication (by identifier, in discovery order, keeping the first
candidate's title and description) of its candidate stream, and in
particular no two records of the output share an identifier. -/
theorem c5_dedup_invariant (root : Node) (v : String) :
    extract_jeps root v = specDedup [] (extractionStream root v) ∧
    ((extract_jeps root v).map JEP.number).Nodup := by
  have h1 := phase1_eq root v
  have hstream : extract_jeps root v = specDedup [] (extractionStream root v) := by
    by_cases he : (phase1 root v).1 = []
    · have hempty : specDedup [] (phase1Cands root v) = [] := by rw [h1] at he; exact he
      have hp1 : phase1 root v = ([], []) := by rw [h1, hempty]; simp
      simp only [extract_jeps, extractionStream, hp1]
      simp only [List.isEmpty_nil, if_true]
      unfold phase2Cands
      rw [← List.foldl_map (phase2LinkCandidate root) dedupFold, foldl_dedupFold]
      simp
    · have hfalse : (phase1 root v).1.isEmpty = false := by
        simpa [List.isEmpty_iff] using he
      simp only [extract_jeps, extractionStream, hfalse]
      simp only [Bool.false_eq_true, if_false]
      rw [h1]
  refine ⟨hstream, ?_⟩
  rw [hstream]
  exact (specDedup_nodup (extractionStream root v) []).1

/-! ## C6: date strategy priority -/

/-- C6: when the milestone-table strategy produces a date on a document
whose flattened text also carries a conflicting inline
General Availability date, the milestone date is the one returned; and on
any document where the milestone strategy fails, a successful inline
strategy takes priority over the generic patterns. -/
theorem c6_date_priority (root : Node) (d1 d2 : DateT)
    (h1 : milestoneStrategy root = some d1)
    (_h2 : gaStrategy (getText root).data = some d2)
    (_hne : d1 ≠ d2) :
    extract_release_date root = some (formatDate d1) ∧
    (∀ r2 : Node, ∀ d : DateT, milestoneStrategy r2 = none →
      gaStrategy (getText r2).data = some d →
      extract_release_date r2 = some (formatDate d)) := by
  constructor
  · simp [extract_release_date, h1]
  · intro r2 d hm hg
    simp [extract_release_date, hm, hg]

/-- Witness for C6: the document `c6Doc` has a milestone General
Availability row dated 2025/09/16 and an inline phrase dated 2024-01-01;
the milestone date wins. -/
theorem c6_date_priority_witness :
    milestoneStrategy c6Doc = some (2025, 9, 16) ∧
    gaStrategy (getText c6Doc).data = some (2024, 1, 1) ∧
    ((2025, 9, 16) : DateT) ≠ (2024, 1, 1) ∧
    extract_release_date c6Doc = some (formatDate (2025, 9, 16)) :=
  ⟨by decide, by decide, by decide,
    (c6_date_priority c6Doc (2025, 9, 16) (2024, 1, 1) (by decide) (by decide) (by decide)).1⟩

/-! ## C7: transport failures never escape the orchestrator -/

/-- C7: for every version, each transport-level fetch failure (HTTP error
status, connection error, timeout) makes `get_jdk_release_info` return
`none`; no exception value crosses this boundary. -/
theorem c7_transport_failure (version : String) (status : Nat) :
    get_jdk_release_info version (.httpError status) = none ∧
    get_jdk_release_info version .connectionError = none ∧
    get_jdk_release_info version .timeout = none :=
  ⟨rfl, rfl, rfl⟩

/-! ## C8: the sample fallback is deterministic -/

/-- C8: constructing the fallback sample release twice for the same
version and tagline yields identical Release Records, and the ordered
proposal list carries the same three sample identifiers every time. -/
theorem c8_fallback_deterministic (version tagline : String) :
    sample_jdk_release version tagline = sample_jdk_release version tagline ∧
    (sample_jdk_release version tagline).jeps.map JEP.number = ["123", "456", "789"] ∧
    (sample_jdk_release version tagline).version = version ∧
    (sample_jdk_release version tagline).tagline = tagline :=
  ⟨rfl, rfl, rfl, rfl⟩

/-! ## C9: deck structure and slide count -/

theorem foldl_append_one (g : α → Slide) (l : List α) (init : List Slide) :
    l.foldl (fun acc x => acc ++ [g x]) init = init ++ l.map g := by
  induction l generalizing init with
  | nil => simp
  | cons a l ih => simp [ih, List.append_assoc]

theorem create_jep_slide_eq (slides : List Slide) (j : JEP) :
    create_jep_slide slides j = slides ++ jepSlides j := by
  unfold create_jep_slide jepSlides
  by_cases hj : j.examples.isEmpty
  · have hnil : j.examples = [] := by simpa [List.isEmpty_iff] using hj
    simp [hnil, enumFrom]
  · have hfalse : j.examples.isEmpty = false := by simpa using hj
    simp only [hfalse, Bool.false_eq_true, if_false]
    rw [foldl_append_one (fun p : Nat × List (String × String) =>
      Slide.exampleSlide (exampleTitle j.number p.1) (exampleContent p.2))]
    simp

theorem foldl_create_jep_slide (jeps : List JEP) (init : List Slide) :
    jeps.foldl create_jep_slide init = init ++ jeps.flatMap jepSlides := by
  induction jeps generalizing init with
  | nil => simp
  | cons j js ih => simp [create_jep_slide_eq, ih, List.append_assoc]

theorem enumFrom_length (i : Nat) (l : List α) : (enumFrom i l).length = l.length := by
  induction l generalizing i with
  | nil => simp [enumFrom]
  | cons a l ih => simp [enumFrom, ih]

theorem jepSlides_length (j : JEP) : (jepSlides j).length = 1 + j.examples.length := by
  simp [jepSlides, enumFrom_length]
  omega

/-- C9: the generated deck is exactly one title slide followed, for each
proposal in list order, by its proposal slide and then one example slide
per example in example-list order; the total slide count is one plus the
sum over proposals of one plus the number of its examples. -/
theorem c9_deck_structure (r : JDKRelease) :
    generate_jdk_presentation r =
      Slide.titleSlide ("JAVA " ++ r.version)
        (r.tagline ++ " (Release date " ++ r.release_date ++ ")") ::
        r.jeps.flatMap jepSlides ∧
    (generate_jdk_presentation r).length =
      1 + (r.jeps.map (fun j => 1 + j.examples.length)).sum := by
  have hgen : generate_jdk_presentation r =
      Slide.titleSlide ("JAVA " ++ r.version)
        (r.tagline ++ " (Release date " ++ r.release_date ++ ")") ::
        r.jeps.flatMap jepSlides := by
    unfold generate_jdk_presentation create_title_slide
    rw [foldl_create_jep_slide]
    simp
  refine ⟨hgen, ?_⟩
  rw [hgen]
  simp only [List.length_cons, List.length_flatMap, Function.comp_def, jepSlides_length]
  omega

/-! ## C10: every returned date has the zero-padded shape -/

theorem digitChar_isDigit (n : Nat) (h : n < 10) : isDigitC (digitChar n) = true := by
  interval_cases n <;> decide

theorem dateShape_formatDate (t : DateT) : dateShape (formatDate t) = true := by
  obtain ⟨y, m, d⟩ := t
  have h4 : ∀ k : Nat, isDigitC (digitChar (k % 10)) = true := fun k =>
    digitChar_isDigit _ (Nat.mod_lt _ (by norm_num))
  show dateShapeL (padNum 4 y ++ '-' :: (padNum 2 m ++ '-' :: padNum 2 d)) = true
  simp [padNum, dateShapeL, h4]

/-- C10: whenever the Date Extractor returns a string at all, that string
has the exact zero-padded `YYYY-MM-DD` shape: every successful strategy
re-serialises its parsed date through `strftime('%Y-%m-%d')`. -/
theorem c10_date_normalized (root : Node) (s : String)
    (h : extract_release_date root = some s) : dateShape s = true := by
  unfold extract_release_date at h
  cases hms : milestoneStrategy root with
  | some d =>
    rw [hms] at h
    simp at h
    rw [← h]
    exact dateShape_formatDate d
  | none =>
    rw [hms] at h
    simp only [] at h
    cases hga : gaStrategy (getText root).data with
    | some d =>
      rw [hga] at h
      simp at h
      rw [← h]
      exact dateShape_formatDate d
    | none =>
      rw [hga] at h
      simp at h
      rcases h with ⟨d, _, rfl⟩
      exact dateShape_formatDate d

/-- Witness for C10: `c10Doc` carries the date `2025/3/5` behind a
`Release Date:` label; the extractor returns it zero-padded and
dash-separated, and the shape predicate accepts it. -/
theorem c10_date_normalized_witness :
    extract_release_date c10Doc = some "2025-03-05" ∧ dateShape "2025-03-05" = true :=
  ⟨by decide, c10_date_normalized c10Doc "2025-03-05" (by decide)⟩

end PresViewer
